import Mathlib

/-!
Verification development for `genie_local.py` (repository IoanU/genie-local).

The program is a single Python file.  Strings are modelled as `List Char`
(ASCII fragment: Python's Unicode-aware `str.strip`, `\s`, `\w`, `str.lower`
are modelled on their ASCII behaviour, which is what every command string in
the program's domain uses).  Every definition below is translated from the
source file `src/genie_local.py`; the line numbers in the doc comments refer
to that file.
-/

/-- The backtick character (code point 96). -/
def btick : Char := Char.ofNat 96

/-- ASCII fragment of Python's whitespace class `\s` = space, tab, newline,
carriage return, vertical tab, form feed.  Also the set stripped by
`str.strip()`. -/
def isPySpace (c : Char) : Bool :=
  c = ' ' || c = '\t' || c = '\n' || c = '\r' || c = Char.ofNat 11 || c = Char.ofNat 12

/-- ASCII fragment of Python's word class `\w` = alphanumeric or underscore. -/
def isPyWord (c : Char) : Bool := c.isAlphanum || c = '_'

/-- Character class `[\w-]` used by the fence-opener regex: word char or hyphen. -/
def isFenceTag (c : Char) : Bool := isPyWord c || c = '-'

/-- Python `str.strip()`: drop leading and trailing whitespace
(`genie_local.py` line 54 and elsewhere). -/
def stripStr (l : List Char) : List Char :=
  ((l.dropWhile isPySpace).reverse.dropWhile isPySpace).reverse

/-- Python `str.lower()` (ASCII fragment), used at lines 207, 228, 233. -/
def toLowerList (l : List Char) : List Char := l.map Char.toLower

/-- Line 56: `re.sub(r"^```[\w-]*\n?", "", s)`.  The pattern is anchored at
the start of the string (`^` without `re.MULTILINE`), so `re.sub` removes at
most one occurrence: three backticks, then a maximal greedy run of `[\w-]`
characters (backtick is not in the class, so no backtracking can occur), then
one optional newline. -/
def dropLeadingFence (l : List Char) : List Char :=
  match l with
  | c1 :: c2 :: c3 :: rest =>
    if c1 = btick ∧ c2 = btick ∧ c3 = btick then
      match rest.dropWhile isFenceTag with
      | '\n' :: r2 => r2
      | r => r
    else l
  | _ => l

/-- Helper for line 57: given the reversed remainder of the string as seen
from a position where Python's dollar anchor matches, remove one occurrence
of the trailing-fence pattern (reversed: three backticks, then one optional
newline that preceded them). -/
def dropFenceRev (m : List Char) : List Char :=
  match m with
  | b1 :: b2 :: b3 :: rest =>
    if b1 = btick ∧ b2 = btick ∧ b3 = btick then
      match rest with
      | '\n' :: rest2 => rest2
      | r => r
    else m
  | _ => m

/-- Line 57: the substitution removing a trailing code fence.  Without
`re.MULTILINE`, Python's dollar anchor matches at the end of the string and
also just before a final newline.  Hence the single (leftmost) match removes
a trailing triple backtick — together with one newline immediately before
it, if any — where "trailing" means either at the very end or immediately
before one final newline character, which itself stays.  At most one match
exists, because a match must end at one of those two positions and after
removing it the scan resumes past the end. -/
def dropTrailingFence (l : List Char) : List Char :=
  match l.reverse with
  | [] => l
  | c :: rp =>
    if c = '\n' then (dropFenceRev rp).reverse ++ ['\n']
    else (dropFenceRev (c :: rp)).reverse

/-- Lines 59-60: `if s.startswith("`") and s.endswith("`"): s = s[1:-1].strip()`.
Note the Python condition is on the first and last character only (a one
character string consisting of a backtick satisfies both), and `s[1:-1]`
drops exactly the first and last character. -/
def stripTicks (l : List Char) : List Char :=
  if l.head? = some btick ∧ l.getLast? = some btick then
    stripStr (l.tail.dropLast)
  else l

/-- Replacement for one maximal whitespace run under
`re.sub(r"\s*\n\s*", " ", s)` (line 62): a maximal whitespace run containing
a newline is exactly one greedy match and becomes a single space; a run
without a newline is not touched (no match can start inside it, and a match
cannot extend past the run's ends). -/
def wsRunNl (run : List Char) : List Char :=
  if '\n' ∈ run then [' '] else run

/-- Replacement for one maximal whitespace run under
`re.sub(r"\s{2,}", " ", s)` (line 63): a maximal whitespace run of length at
least two is exactly one greedy match and becomes a single space; a run of
length one is left alone. -/
def wsRunSp (run : List Char) : List Char :=
  if 2 ≤ run.length then [' '] else run

/-- Emit the pending (reversed) whitespace run through the run-replacement
function `f`; an empty pending run emits nothing. -/
def flushRun (f : List Char → List Char) (acc : List Char) : List Char :=
  if acc = [] then [] else f acc.reverse

/-- Scan the string, collecting each maximal whitespace run (reversed, in
`acc`) and passing it through the run replacement `f`; non-whitespace
characters are copied unchanged.  This is `re.sub` for the two whitespace
patterns of lines 62-63, whose matches are exactly the maximal whitespace
runs selected by `f`. -/
def collapseGo (f : List Char → List Char) (acc : List Char) : List Char → List Char
  | [] => flushRun f acc
  | c :: rest =>
    if isPySpace c then collapseGo f (c :: acc) rest
    else flushRun f acc ++ c :: collapseGo f [] rest

/-- Line 62: `s = re.sub(r"\s*\n\s*", " ", s)`. -/
def collapseNl (l : List Char) : List Char := collapseGo wsRunNl [] l

/-- Line 63: `s = re.sub(r"\s{2,}", " ", s)`. -/
def collapseSp (l : List Char) : List Char := collapseGo wsRunSp [] l

/-- The part of the normalization pipeline before the backtick-pair strip:
strip, remove leading fence, remove trailing fence (lines 54-57). -/
def preTicks (l : List Char) : List Char :=
  dropTrailingFence (dropLeadingFence (stripStr l))

/-- Lines 51-65: `normalize_one_line`.  Empty input short-circuits to the
empty string; otherwise strip, drop a leading/trailing code fence, strip one
layer of wrapping backticks, collapse newline runs and multi-space runs, and
strip again. -/
def normalize_one_line (l : List Char) : List Char :=
  if l = [] then []
  else
    let s1 := stripStr l
    let s2 := dropLeadingFence s1
    let s3 := dropTrailingFence s2
    let s4 := stripTicks s3
    let s5 := collapseNl s4
    let s6 := collapseSp s5
    stripStr s6

example : normalize_one_line ("  ls -la  ".toList) = "ls -la".toList := by decide

example :
    normalize_one_line
      ([btick, btick, btick, 's', 'h', '\n', 'l', 's', ' ', '-', 'l', 'a', '\n',
        btick, btick, btick]) = "ls -la".toList := by decide

example : normalize_one_line ("a\n  b".toList) = "a b".toList := by decide

-- Evaluation checks of the normalizer model against CPython's observed
-- behaviour on the same inputs.
example : normalize_one_line [btick, btick, 'x', btick, btick] = [btick, 'x', btick] := by decide
example : normalize_one_line [btick, 'a', btick, ' ', btick, 'b', btick] = ['a', btick, ' ', btick, 'b'] := by decide
example : normalize_one_line [btick] = [] := by decide
example : normalize_one_line [btick, btick] = [] := by decide
example : normalize_one_line [btick, btick, btick] = [] := by decide
example : normalize_one_line [btick, btick, btick, btick] = [] := by decide
example : normalize_one_line [btick, btick, btick, btick, btick, btick, ' ', 'x'] = [btick, btick, btick, ' ', 'x'] := by decide
example : normalize_one_line ['x', btick, btick, btick] = ['x'] := by decide
example : normalize_one_line [btick, btick, btick, '\n'] = [] := by decide
example : normalize_one_line ['\n', btick, btick, btick] = [] := by decide
example : normalize_one_line ('l' :: 's' :: '\n' :: btick :: btick :: btick :: '\n' :: []) = ['l', 's'] := by decide
example : normalize_one_line (btick :: btick :: btick :: ' ' :: '\n' :: []) = [] := by decide
example : normalize_one_line (btick :: btick :: btick :: '\n' :: btick :: btick :: btick :: []) = [] := by decide
example : normalize_one_line (btick :: btick :: ' ' :: btick :: 'a' :: btick :: ' ' :: btick :: btick :: []) = (btick :: ' ' :: btick :: 'a' :: btick :: ' ' :: btick :: []) := by decide
example : normalize_one_line ("a  \n\n  b".toList) = "a b".toList := by decide
example : normalize_one_line ("a \t b".toList) = "a b".toList := by decide
example : normalize_one_line (btick :: btick :: btick :: 'b' :: 'a' :: 's' :: 'h' :: '-' :: 'x' :: '\n' :: 'f' :: 'o' :: 'o' :: btick :: btick :: btick :: []) = "foo".toList := by decide

/-- Consume the literal character sequence `pat` from the front of the input,
returning the rest on success. -/
def eatLit : List Char → List Char → Option (List Char)
  | [], l => some l
  | _ :: _, [] => none
  | p :: ps, c :: cs => if c = p then eatLit ps cs else none

/-- Consume a regex element of the form one-or-more-whitespace.  In every
pattern of the list the following element starts with a non-whitespace
character, so the greedy maximal consumption is the only possible one and no
backtracking can occur. -/
def eatWs1 : List Char → Option (List Char)
  | [] => none
  | c :: rest =>
    if isPySpace c then some (rest.dropWhile isPySpace) else none

/-- A word-boundary assertion sitting after a non-word character (or the
start of the pattern match region) holds exactly when the next input
character exists and is a word character. -/
def nextIsWord : List Char → Bool
  | [] => false
  | c :: _ => isPyWord c

/-- A word-boundary assertion sitting after a word character holds exactly
when the input is exhausted or the next character is a non-word character. -/
def nextNonWord : List Char → Bool
  | [] => true
  | c :: _ => !isPyWord c

/-- A leading word-boundary assertion before a word character holds exactly
when the match starts at the beginning of the string or right after a
non-word character. -/
def prevNonWord : Option Char → Bool
  | none => true
  | some c => !isPyWord c

/-- A leading word-boundary assertion before a NON-word character (only the
truncation pattern starts that way) holds exactly when the previous
character exists and is a word character. -/
def prevIsWord : Option Char → Bool
  | none => false
  | some c => isPyWord c

/-- Pattern `rm\s+-rf\s+/\b` (line 9): literal rm, whitespace, -rf,
whitespace, slash; the trailing boundary after the non-word slash requires a
following word character.  (Hence the bare command "rm -rf /" does NOT
match, as in CPython.) -/
def matchRmRf (_ : Option Char) (l : List Char) : Bool :=
  (((((eatLit "rm".toList l).bind eatWs1).bind
      (eatLit "-rf".toList)).bind eatWs1).bind
      (eatLit "/".toList)).elim false nextIsWord

/-- Pattern `mkfs\.` (line 10): the literal five characters. -/
def matchMkfs (_ : Option Char) (l : List Char) : Bool :=
  (eatLit "mkfs.".toList l).isSome

/-- Pattern `\bumount\b` (line 10). -/
def matchUmount (prev : Option Char) (l : List Char) : Bool :=
  prevNonWord prev && (eatLit "umount".toList l).elim false nextNonWord

/-- Pattern `\bdd\b\s+if=` (line 10): the boundary after dd is implied by
the mandatory whitespace that follows (whitespace is non-word). -/
def matchDdIf (prev : Option Char) (l : List Char) : Bool :=
  prevNonWord prev &&
    (((eatLit "dd".toList l).bind eatWs1).bind (eatLit "if=".toList)).isSome

/-- Pattern `\bshutdown\b` (line 11). -/
def matchShutdown (prev : Option Char) (l : List Char) : Bool :=
  prevNonWord prev && (eatLit "shutdown".toList l).elim false nextNonWord

/-- Pattern `\breboot\b` (line 11). -/
def matchReboot (prev : Option Char) (l : List Char) : Bool :=
  prevNonWord prev && (eatLit "reboot".toList l).elim false nextNonWord

/-- Pattern `\bchown\s+-R\s+root\b` (line 12). -/
def matchChown (prev : Option Char) (l : List Char) : Bool :=
  prevNonWord prev &&
    ((((((eatLit "chown".toList l).bind eatWs1).bind
        (eatLit "-R".toList)).bind eatWs1).bind
        (eatLit "root".toList)).elim false nextNonWord)

/-- Pattern `\bchmod\s+0{3,4}\b` (line 13).  With greedy matching and
backtracking, `0{3,4}` followed by a boundary succeeds exactly when the
maximal run of zeros after the whitespace has length three or four and the
character after that run (if any) is a non-word character: a run of five or
more fails for both repetition counts because the next character is the word
character zero itself. -/
def matchChmod (prev : Option Char) (l : List Char) : Bool :=
  prevNonWord prev &&
    ((eatLit "chmod".toList l).bind eatWs1).elim false (fun t =>
      let zs := t.takeWhile (fun c => c = '0')
      let rest := t.dropWhile (fun c => c = '0')
      (zs.length == 3 || zs.length == 4) && nextNonWord rest)

/-- Pattern `\b:>\s*/\w` (line 14): the boundary before the non-word colon
requires a preceding word character (so a command starting with the colon
does not match); then colon, greater-than, optional whitespace, slash and a
word character. -/
def matchTrunc (prev : Option Char) (l : List Char) : Bool :=
  prevIsWord prev &&
    (((eatLit ":>".toList l).map (List.dropWhile isPySpace)).bind
      (eatLit "/".toList)).elim false nextIsWord

/-- The nine signatures of `DANGEROUS_PATTERNS` (lines 8-15), each compiled
to a matcher that decides whether the pattern matches at one given position
(the position's preceding character is passed for the boundary
assertions). -/
def DANGEROUS_MATCHERS : List (Option Char → List Char → Bool) :=
  [matchRmRf, matchMkfs, matchUmount, matchDdIf, matchShutdown,
   matchReboot, matchChown, matchChmod, matchTrunc]

/-- Try the positional matcher at the current position and at every later
position, remembering the character preceding each position. -/
def searchGo (m : Option Char → List Char → Bool) :
    Option Char → List Char → Bool
  | prev, [] => m prev []
  | prev, c :: rest => m prev (c :: rest) || searchGo m (some c) rest

/-- Python `re.search`: does the pattern match at some position of the
string? -/
def reSearch (m : Option Char → List Char → Bool) (l : List Char) : Bool :=
  searchGo m none l

/-- Lines 67-71: `is_dangerous` — true iff some pattern of the fixed list
matches somewhere in the command. -/
def is_dangerous (cmd : List Char) : Bool :=
  DANGEROUS_MATCHERS.any (fun m => reSearch m cmd)

example : is_dangerous ("rm -rf /home".toList) = true := by decide
example : is_dangerous ("rm -rf /".toList) = false := by decide
example : is_dangerous ("mkfs.ext4 /dev/sda1".toList) = true := by decide
example : is_dangerous ("ls -la".toList) = false := by decide
example : is_dangerous ("chmod 0000 f".toList) = true := by decide
example : is_dangerous ("chmod 00000 f".toList) = false := by decide
example : is_dangerous ("x:> /etc/passwd".toList) = true := by decide
example : is_dangerous (":> /etc/passwd".toList) = false := by decide

/-- The persisted session record written by `save_state` (lines 87-95).
The wall-clock `timestamp` field is outside the model; the JSON encoding of
a missing exit code as an empty string is modelled by `Option Int`. -/
structure SessionState where
  task : List Char
  cmd : List Char
  last_error : List Char
  exit_code : Option Int
deriving DecidableEq

/-- Lines 87-95: `save_state(task, cmd, last_error=None, exit_code=None)`;
`last_error or ""` turns an absent error into the empty string. -/
def save_state (task cmd : List Char) (lastError : Option (List Char))
    (exitCode : Option Int) : SessionState :=
  ⟨task, cmd, lastError.getD [], exitCode⟩

/-- How one invocation of the process ends: an explicit `sys.exit(code)`, a
normal return from `main` (process status 0), or an uncaught exception
(Python prints a traceback and the process dies without reaching any of the
following statements). -/
inductive ProcEnd where
  | exited (code : Int)
  | completed
  | crashed
deriving DecidableEq

/-- The literal confirmation token demanded for dangerous commands
(line 202). -/
def YES_TOKEN : List Char := "YES".toList

/-- The result of `input(...).lower().strip()` being one of the accepted
confirmation answers `("y", "yes")` (lines 207-208, 228-229, 233-234). -/
abbrev isYes (s : List Char) : Prop :=
  stripStr (toLowerList s) = "y".toList ∨ stripStr (toLowerList s) = "yes".toList

/-- The check `if not cmd or "\n" in cmd` shared by `suggest` (line 100) and
`refine` (line 108). -/
abbrev emptyOrMultiline (cmd : List Char) : Prop := cmd = [] ∨ '\n' ∈ cmd

/-- Captured result of `subprocess.run([shell, "-lc", cmd],
capture_output=True, text=True)` (line 215). -/
structure ExecOutcome where
  stdout : List Char
  stderr : List Char
  returncode : Int
deriving DecidableEq

/-- All external inputs consumed by one run-mode invocation after the
command has been suggested: the confirmation line, the captured execution
result of the suggested command, the answer to the refine offer, the raw
backend response for the refinement round, the answer to the second
confirmation, the return code of the improved command, the `--no-history`
flag, and whether the history append raises an `OSError`. -/
structure RunEnv where
  confirmInput : List Char
  execOutcome : ExecOutcome
  refineChoice : List Char
  refinedRaw : List Char
  confirm2 : List Char
  returncode2 : Int
  no_history : Bool
  historyFails : Bool
deriving DecidableEq

/-- Observable outcome of a run-mode invocation: how the process ended, the
session states written in order, the commands actually handed to the shell,
and the captured-stderr payloads written to the error stream.  (Fixed
diagnostic message strings and stdout echoes are not tracked.) -/
structure RunResult where
  ending : ProcEnd
  savedStates : List SessionState
  executed : List (List Char)
  errPrints : List (List Char)
deriving DecidableEq

/-- Lines 213-253: run mode after the confirmation gate has been passed.
Zero exit: print stdout, append history (a failing append raises and the
state is never saved), save state with empty error, exit 0.  Nonzero exit:
write the captured stderr, save state with the stripped stderr and the exit
code, then offer a refinement round; declining it exits with the original
code; accepting normalizes the backend's refined response (an empty or
multiline refinement exits 2 from inside `refine`); a second confirmation
gate then either executes the improved command (zero: history then state
then exit 0; nonzero: `check=True` raises, the handler saves the state with
a synthesized "exit N" error and exits N) or declines, saving the improved
command unexecuted and exiting 0. -/
def runExecPhase (task cmd : List Char) (env : RunEnv) : RunResult :=
  if env.execOutcome.returncode = 0 then
    if env.no_history = false ∧ env.historyFails = true then
      ⟨ProcEnd.crashed, [], [cmd], []⟩
    else
      ⟨ProcEnd.exited 0, [save_state task cmd (some []) (some 0)], [cmd], []⟩
  else
    let st1 := save_state task cmd (some (stripStr env.execOutcome.stderr))
      (some env.execOutcome.returncode)
    if isYes env.refineChoice then
      let improved := normalize_one_line env.refinedRaw
      if emptyOrMultiline improved then
        ⟨ProcEnd.exited 2, [st1], [cmd], [env.execOutcome.stderr]⟩
      else if isYes env.confirm2 then
        if env.returncode2 = 0 then
          if env.no_history = false ∧ env.historyFails = true then
            ⟨ProcEnd.crashed, [st1], [cmd, improved], [env.execOutcome.stderr]⟩
          else
            ⟨ProcEnd.exited 0,
              [st1, save_state task improved (some []) (some 0)],
              [cmd, improved], [env.execOutcome.stderr]⟩
        else
          ⟨ProcEnd.exited env.returncode2,
            [st1, save_state task improved
              (some ("exit ".toList ++ (toString env.returncode2).toList))
              (some env.returncode2)],
            [cmd, improved], [env.execOutcome.stderr]⟩
      else
        ⟨ProcEnd.exited 0, [st1, save_state task improved none none],
          [cmd], [env.execOutcome.stderr]⟩
    else
      ⟨ProcEnd.exited env.execOutcome.returncode, [st1], [cmd],
        [env.execOutcome.stderr]⟩

/-- Lines 198-211: the run-mode confirmation gate around the suggested
command `cmd`.  Dangerous commands demand that the stripped input equal the
literal token YES, anything else saves the state and exits 3; ordinary
commands accept a lowercased-stripped y or yes, anything else saves the
state and exits 0. -/
def runMode (task cmd : List Char) (env : RunEnv) : RunResult :=
  if is_dangerous cmd then
    if stripStr env.confirmInput ≠ YES_TOKEN then
      ⟨ProcEnd.exited 3, [save_state task cmd none none], [], []⟩
    else runExecPhase task cmd env
  else
    if ¬ isYes env.confirmInput then
      ⟨ProcEnd.exited 0, [save_state task cmd none none], [], []⟩
    else runExecPhase task cmd env

/-- The gate of lines 199-211 lets the invocation through to execution. -/
abbrev gateAccepts (cmd input : List Char) : Prop :=
  (is_dangerous cmd = true → stripStr input = YES_TOKEN) ∧
  (is_dangerous cmd = false → isYes input)

/-- The dictionary returned by `load_state` (lines 79-85): a missing or
corrupt file yields an empty dict, and each field may be absent. -/
structure StateData where
  taskF : Option (List Char)
  cmdF : Option (List Char)
  lastErrorF : Option (List Char)
deriving DecidableEq

/-- Python `state.get(key, "")` / the falsy test `not state.get(key)`:
an absent key behaves as the empty string. -/
def getD0 (o : Option (List Char)) : List Char := o.getD []

/-- Python's `a or b` on strings: `b` exactly when `a` is empty. -/
def pyOr (a b : List Char) : List Char := if a = [] then b else a

/-- Python `" ".join(args.task)`. -/
def joinSpaces (args : List (List Char)) : List Char :=
  List.intercalate [' '] args

/-- Outcome of the context-resolution step of refine mode (lines 135-152):
either a usage error (message printed, `sys.exit(1)`) or the triple
(task, prev_cmd, problem) handed to the prompt builder, together with the
flag telling whether the no-previous-command warning was printed. -/
inductive RefineEntryResult where
  | usageError
  | proceed (task prevCmd problem : List Char) (warned : Bool)
deriving DecidableEq

/-- Lines 135-152: choose task, previous command and problem text for
refine mode.  With `--use-last`, both a stored task and a stored command
must be present (falsy test), and the problem is `--why` or else the stored
last error.  Without it, a task on the command line is required — the
stored state is NOT consulted as a fallback for the task — and the stored
command, possibly empty, becomes the previous-command context. -/
def refineEntry (useLast : Bool) (taskArgs : List (List Char))
    (why : List Char) (st : StateData) : RefineEntryResult :=
  if useLast then
    if getD0 st.taskF = [] ∨ getD0 st.cmdF = [] then
      RefineEntryResult.usageError
    else
      RefineEntryResult.proceed (getD0 st.taskF) (getD0 st.cmdF)
        (pyOr why (getD0 st.lastErrorF)) false
  else
    if taskArgs = [] then RefineEntryResult.usageError
    else
      RefineEntryResult.proceed (joinSpaces taskArgs) (getD0 st.cmdF) why
        (getD0 st.cmdF = [])

/-- Observable outcome of a suggest- or refine-mode invocation: how the
process ended, the commands printed to stdout, the (task, cmd) pairs
appended to the history file, and the session states written. -/
structure ModeResult where
  ending : ProcEnd
  printed : List (List Char)
  historyWrites : List (List Char × List Char)
  stateWrites : List SessionState
deriving DecidableEq

/-- Lines 135-159: the whole refine-mode invocation, parameterized by the
raw backend response `raw` for the built prompt and by whether the history
append would raise.  After a successful generation the command is
normalized; an empty or multiline result exits 2 (nothing written); then
history is appended unless suppressed (a failure there is an uncaught
exception: the state is never saved and the command never printed), the
state is saved, the command printed, and `main` returns normally. -/
def refineMain (useLast : Bool) (taskArgs : List (List Char))
    (why : List Char) (noHistory historyFails : Bool) (raw : List Char)
    (st : StateData) : ModeResult :=
  match refineEntry useLast taskArgs why st with
  | RefineEntryResult.usageError => ⟨ProcEnd.exited 1, [], [], []⟩
  | RefineEntryResult.proceed task _prevCmd _problem _warned =>
    let cmd := normalize_one_line raw
    if emptyOrMultiline cmd then ⟨ProcEnd.exited 2, [], [], []⟩
    else if noHistory = false ∧ historyFails = true then
      ⟨ProcEnd.crashed, [], [], []⟩
    else
      ⟨ProcEnd.completed, [cmd],
        (if noHistory then [] else [(task, cmd)]),
        [save_state task cmd none none]⟩

/-- Lines 162-172: the whole suggest-mode invocation, parameterized like
`refineMain`.  An empty task list is a usage error (exit 1); otherwise the
backend response is normalized and checked, history appended unless
suppressed (a failing append is an uncaught exception), state saved,
command printed. -/
def suggestMain (taskArgs : List (List Char)) (noHistory historyFails : Bool)
    (raw : List Char) : ModeResult :=
  if taskArgs = [] then ⟨ProcEnd.exited 1, [], [], []⟩
  else
    let task := joinSpaces taskArgs
    let cmd := normalize_one_line raw
    if emptyOrMultiline cmd then ⟨ProcEnd.exited 2, [], [], []⟩
    else if noHistory = false ∧ historyFails = true then
      ⟨ProcEnd.crashed, [], [], []⟩
    else
      ⟨ProcEnd.completed, [cmd],
        (if noHistory then [] else [(task, cmd)]),
        [save_state task cmd none none]⟩

/-- The flushed newline-collapsing run never contains a newline: a run with
a newline becomes a single space, all other runs had none. -/
lemma flushRun_nl_no_nl (acc : List Char) : '\n' ∉ flushRun wsRunNl acc := by
  unfold flushRun wsRunNl
  split
  · simp
  · split
    · simp
    · next h => simpa using fun hm => h hm

/-- The newline-collapsing pass leaves no newline in its output. -/
lemma collapseGo_nl_no_nl (l : List Char) : ∀ acc, '\n' ∉ collapseGo wsRunNl acc l := by
  induction l with
  | nil => intro acc; simpa [collapseGo] using flushRun_nl_no_nl acc
  | cons c rest ih =>
    intro acc
    by_cases h : isPySpace c
    · simpa [collapseGo, h] using ih (c :: acc)
    · have hc : c ≠ '\n' := by
        intro he; subst he; exact h (by decide)
      simp only [collapseGo, h, if_false, Bool.false_eq_true, List.mem_append,
        List.mem_cons, not_or]
      exact ⟨flushRun_nl_no_nl acc, fun he => hc he.symm, ih []⟩

/-- Flushing a newline-free run through the space-collapsing replacement
introduces no newline. -/
lemma flushRun_sp_no_nl (acc : List Char) (h : '\n' ∉ acc) :
    '\n' ∉ flushRun wsRunSp acc := by
  unfold flushRun wsRunSp
  split
  · simp
  · split
    · simp
    · simpa using h

/-- The space-collapsing pass preserves newline-freeness. -/
lemma collapseGo_sp_no_nl (l : List Char) : ∀ acc, '\n' ∉ l → '\n' ∉ acc →
    '\n' ∉ collapseGo wsRunSp acc l := by
  induction l with
  | nil => intro acc _ ha; simpa [collapseGo] using flushRun_sp_no_nl acc ha
  | cons c rest ih =>
    intro acc hl ha
    have hc : c ≠ '\n' := fun he => hl (he ▸ List.mem_cons_self c rest)
    have hrest : '\n' ∉ rest := fun hm => hl (List.mem_cons_of_mem _ hm)
    by_cases h : isPySpace c
    · have hca : '\n' ∉ c :: acc := by
        simp only [List.mem_cons, not_or]
        exact ⟨fun he => hc he.symm, ha⟩
      simpa [collapseGo, h] using ih (c :: acc) hrest hca
    · simp only [collapseGo, h, if_false, Bool.false_eq_true, List.mem_append,
        List.mem_cons, not_or]
      exact ⟨flushRun_sp_no_nl acc ha, fun he => hc he.symm, ih [] hrest (by simp)⟩

/-- Stripping takes an infix (a contiguous slice) of the string. -/
lemma stripStr_slice (l : List Char) : stripStr l <:+: l := by
  have h1 : l.dropWhile isPySpace <:+ l := List.dropWhile_suffix _
  have h2 : (l.dropWhile isPySpace).reverse.dropWhile isPySpace <:+
      (l.dropWhile isPySpace).reverse := List.dropWhile_suffix _
  have h3 : stripStr l <+: l.dropWhile isPySpace := by
    have h4 := List.reverse_prefix.mpr h2
    rw [List.reverse_reverse] at h4
    exact h4
  exact List.IsInfix.trans (List.IsPrefix.isInfix h3) (List.IsSuffix.isInfix h1)

/-- Membership in the stripped string implies membership in the string. -/
lemma mem_of_stripStr {a : Char} {l : List Char} (h : a ∈ stripStr l) : a ∈ l :=
  List.IsInfix.subset (stripStr_slice l) h

/-- Adjacent-pair relation: not both characters are whitespace.  The output
of the space-collapsing pass satisfies it everywhere (all whitespace runs
have collapsed to single characters). -/
def noTwoWS (a b : Char) : Prop := ¬(isPySpace a = true ∧ isPySpace b = true)

/-- The flushed space-collapsing run is empty or a single character. -/
lemma flushRun_sp_small (acc : List Char) :
    flushRun wsRunSp acc = [] ∨ ∃ x, flushRun wsRunSp acc = [x] := by
  unfold flushRun
  split
  · exact Or.inl rfl
  · next hne =>
    unfold wsRunSp
    split
    · exact Or.inr ⟨' ', rfl⟩
    · next hlen =>
      have h0 : acc.reverse.length ≠ 0 := by
        rw [List.length_reverse]
        intro h; exact hne (List.length_eq_zero.mp h)
      have h1 : acc.reverse.length = 1 := by omega
      obtain ⟨x, hx⟩ := List.length_eq_one.mp h1
      exact Or.inr ⟨x, hx⟩

/-- Whatever the input, the space-collapsing pass emits no two adjacent
whitespace characters. -/
lemma chain'_collapseGo_sp (l : List Char) : ∀ acc,
    List.Chain' noTwoWS (collapseGo wsRunSp acc l) := by
  induction l with
  | nil =>
    intro acc
    rcases flushRun_sp_small acc with h | ⟨x, h⟩ <;> simp [collapseGo, h]
  | cons c rest ih =>
    intro acc
    by_cases h : isPySpace c
    · simpa [collapseGo, h] using ih (c :: acc)
    · simp only [collapseGo, h, if_false, Bool.false_eq_true]
      refine List.chain'_append.mpr ⟨?_, ?_, ?_⟩
      · rcases flushRun_sp_small acc with h2 | ⟨x, h2⟩ <;> simp [h2]
      · refine List.chain'_cons'.mpr ⟨?_, ih []⟩
        intro y _
        exact fun hp => h hp.1
      · intro x _ y hy
        simp only [List.head?_cons, Option.mem_def, Option.some.injEq] at hy
        subst hy
        exact fun hp => h hp.2

/-- Flushing a newline-free run is the identity (modulo the accumulator's
reversal). -/
lemma flushRun_nl_eq (acc : List Char) (h : '\n' ∉ acc) :
    flushRun wsRunNl acc = acc.reverse := by
  unfold flushRun wsRunNl
  split
  · next ha => simp [ha]
  · rw [if_neg]
    simpa using h

/-- On a newline-free string the newline-collapsing pass is the identity. -/
lemma collapseGo_nl_id (l : List Char) : ∀ acc, '\n' ∉ l → '\n' ∉ acc →
    collapseGo wsRunNl acc l = acc.reverse ++ l := by
  induction l with
  | nil => intro acc _ ha; simp [collapseGo, flushRun_nl_eq acc ha]
  | cons c rest ih =>
    intro acc hl ha
    have hc : c ≠ '\n' := fun he => hl (he ▸ List.mem_cons_self c rest)
    have hrest : '\n' ∉ rest := fun hm => hl (List.mem_cons_of_mem _ hm)
    by_cases h : isPySpace c
    · have hca : '\n' ∉ c :: acc := by
        simp only [List.mem_cons, not_or]
        exact ⟨fun he => hc he.symm, ha⟩
      rw [show collapseGo wsRunNl acc (c :: rest) = collapseGo wsRunNl (c :: acc) rest by
        simp [collapseGo, h]]
      rw [ih (c :: acc) hrest hca]
      simp
    · simp [collapseGo, h, flushRun_nl_eq acc ha, ih [] hrest (by simp)]

/-- Line 62 is the identity on newline-free strings. -/
lemma collapseNl_id (l : List Char) (h : '\n' ∉ l) : collapseNl l = l := by
  simpa [collapseNl] using collapseGo_nl_id l [] h (by simp)

/-- On a string with no two adjacent whitespace characters the
space-collapsing pass is the identity. -/
lemma collapseGo_sp_id (l : List Char) : ∀ acc,
    (acc = [] ∨ ∃ a, acc = [a] ∧ isPySpace a = true) →
    List.Chain' noTwoWS (acc.reverse ++ l) →
    collapseGo wsRunSp acc l = acc.reverse ++ l := by
  induction l with
  | nil =>
    intro acc hacc _
    rcases hacc with h | ⟨a, ha, _⟩
    · subst h; simp [collapseGo, flushRun]
    · subst ha; simp [collapseGo, flushRun, wsRunSp]
  | cons c rest ih =>
    intro acc hacc hch
    by_cases h : isPySpace c
    · rcases hacc with h0 | ⟨a, ha, haws⟩
      · subst h0
        simp only [List.reverse_nil, List.nil_append] at hch ⊢
        rw [show collapseGo wsRunSp [] (c :: rest) = collapseGo wsRunSp [c] rest by
          simp [collapseGo, h]]
        have := ih [c] (Or.inr ⟨c, rfl, h⟩) (by simpa using hch)
        simpa using this
      · subst ha
        exfalso
        have hcc : List.Chain' noTwoWS (a :: c :: rest) := by simpa using hch
        exact (List.chain'_cons.mp hcc).1 ⟨haws, h⟩
    · have hfl : flushRun wsRunSp acc = acc.reverse := by
        rcases hacc with h0 | ⟨a, ha, _⟩
        · subst h0; simp [flushRun]
        · subst ha; simp [flushRun, wsRunSp]
      have hch' : List.Chain' noTwoWS rest :=
        List.Chain'.infix hch ⟨acc.reverse ++ [c], [], by simp⟩
      simp only [collapseGo, h, if_false, Bool.false_eq_true]
      rw [hfl, ih [] (Or.inl rfl) (by simpa using hch')]
      simp

/-- Line 63 is the identity on strings with no two adjacent whitespace
characters. -/
lemma collapseSp_id (l : List Char) (h : List.Chain' noTwoWS l) :
    collapseSp l = l := by
  simpa [collapseSp] using collapseGo_sp_id l [] (Or.inl rfl) (by simpa using h)

/-- The head of a dropWhile result does not satisfy the predicate. -/
lemma head?_dropWhile_not (p : Char → Bool) (l : List Char) :
    ∀ c, (l.dropWhile p).head? = some c → p c = false := by
  induction l with
  | nil => intro c h; simp [List.dropWhile] at h
  | cons a as ih =>
    intro c h
    rw [List.dropWhile_cons] at h
    by_cases hp : p a
    · rw [if_pos hp] at h; exact ih c h
    · rw [if_neg hp] at h
      simp only [List.head?_cons, Option.some.injEq] at h
      subst h
      simpa using hp

/-- dropWhile is the identity when the head (if any) fails the predicate. -/
lemma dropWhile_eq_self_of_head? (p : Char → Bool) (l : List Char)
    (h : ∀ c, l.head? = some c → p c = false) : l.dropWhile p = l := by
  cases l with
  | nil => rfl
  | cons a as =>
    have := h a rfl
    rw [List.dropWhile_cons, if_neg (by simp [this])]

/-- A nonempty dropWhile result keeps the original last element. -/
lemma getLast?_dropWhile (p : Char → Bool) (l : List Char)
    (h : l.dropWhile p ≠ []) : (l.dropWhile p).getLast? = l.getLast? := by
  obtain ⟨t, ht⟩ := List.dropWhile_suffix (l := l) p
  conv_rhs => rw [← ht]
  rw [List.getLast?_append_of_ne_nil _ h]

/-- Stripping is the identity on a string whose first and last characters
are not whitespace. -/
lemma stripStr_eq_self (l : List Char)
    (h1 : ∀ c, l.head? = some c → isPySpace c = false)
    (h2 : ∀ c, l.getLast? = some c → isPySpace c = false) : stripStr l = l := by
  unfold stripStr
  rw [dropWhile_eq_self_of_head? _ _ h1]
  rw [dropWhile_eq_self_of_head? _ _ (by
    intro c hc
    rw [List.head?_reverse] at hc
    exact h2 c hc)]
  exact List.reverse_reverse l

/-- The stripped string does not end in whitespace. -/
lemma stripStr_last (l : List Char) :
    ∀ c, (stripStr l).getLast? = some c → isPySpace c = false := by
  intro c hc
  unfold stripStr at hc
  rw [List.getLast?_reverse] at hc
  exact head?_dropWhile_not _ _ c hc

/-- The stripped string does not start with whitespace. -/
lemma stripStr_head (l : List Char) :
    ∀ c, (stripStr l).head? = some c → isPySpace c = false := by
  intro c hc
  unfold stripStr at hc
  rw [List.head?_reverse] at hc
  by_cases hB : (l.dropWhile isPySpace).reverse.dropWhile isPySpace = []
  · rw [hB] at hc; simp at hc
  · rw [getLast?_dropWhile _ _ hB, List.getLast?_reverse] at hc
    exact head?_dropWhile_not _ _ c hc

/-- Stripping is idempotent. -/
lemma stripStr_idem (l : List Char) : stripStr (stripStr l) = stripStr l :=
  stripStr_eq_self _ (stripStr_head l) (stripStr_last l)

/-- Unfolded pipeline form of normalization on nonempty input. -/
lemma normalize_shape (l : List Char) (h : l ≠ []) :
    normalize_one_line l =
      stripStr (collapseSp (collapseNl (stripTicks (preTicks l)))) := by
  rw [normalize_one_line, if_neg h]
  rfl

/-- The normalized string never contains a newline (claim C3's content). -/
lemma normalize_no_newline (l : List Char) : '\n' ∉ normalize_one_line l := by
  by_cases h : l = []
  · subst h; simp [normalize_one_line]
  · rw [normalize_shape l h]
    intro hm
    have hm2 := mem_of_stripStr hm
    have h1 : '\n' ∉ collapseNl (stripTicks (preTicks l)) := collapseGo_nl_no_nl _ []
    exact collapseGo_sp_no_nl _ [] h1 (by simp) hm2

/-- The normalized string has no two adjacent whitespace characters. -/
lemma normalize_chain (l : List Char) :
    List.Chain' noTwoWS (normalize_one_line l) := by
  by_cases h : l = []
  · subst h; simp [normalize_one_line]
  · rw [normalize_shape l h]
    exact List.Chain'.infix (chain'_collapseGo_sp _ []) (stripStr_slice _)

/-- The normalized string is already stripped. -/
lemma normalize_stripped (l : List Char) :
    stripStr (normalize_one_line l) = normalize_one_line l := by
  by_cases h : l = []
  · subst h; simp [normalize_one_line, stripStr]
  · rw [normalize_shape l h]
    exact stripStr_idem _

/-- On a backtick-free string the leading-fence removal does nothing. -/
lemma dropLeadingFence_of_no_btick (l : List Char) (h : btick ∉ l) :
    dropLeadingFence l = l := by
  rcases l with _ | ⟨c1, _ | ⟨c2, _ | ⟨c3, rest⟩⟩⟩
  · rfl
  · rfl
  · rfl
  · show (if c1 = btick ∧ c2 = btick ∧ c3 = btick then _ else _) = _
    rw [if_neg]
    rintro ⟨h1, -, -⟩
    subst h1
    exact h (List.mem_cons_self _ _)

/-- On a backtick-free reversed remainder the trailing-fence helper does
nothing. -/
lemma dropFenceRev_of_no_btick (m : List Char) (h : btick ∉ m) :
    dropFenceRev m = m := by
  rcases m with _ | ⟨b1, _ | ⟨b2, _ | ⟨b3, rest⟩⟩⟩
  · rfl
  · rfl
  · rfl
  · show (if b1 = btick ∧ b2 = btick ∧ b3 = btick then _ else _) = _
    rw [if_neg]
    rintro ⟨h1, -, -⟩
    subst h1
    exact h (List.mem_cons_self _ _)

/-- On a backtick-free newline-free string the trailing-fence removal does
nothing. -/
lemma dropTrailingFence_of_clean (l : List Char) (hb : btick ∉ l)
    (hn : '\n' ∉ l) : dropTrailingFence l = l := by
  unfold dropTrailingFence
  split
  · rfl
  · next c rp heq =>
    have hcn : c ≠ '\n' := by
      intro he
      apply hn
      subst he
      have : '\n' ∈ l.reverse := by rw [heq]; exact List.mem_cons_self _ _
      simpa using this
    have hbr : btick ∉ c :: rp := by
      rw [← heq]
      simpa using hb
    rw [if_neg hcn, dropFenceRev_of_no_btick _ hbr, ← heq, List.reverse_reverse]

/-- On a backtick-free string the wrapping-backtick strip does nothing. -/
lemma stripTicks_of_no_btick (l : List Char) (h : btick ∉ l) :
    stripTicks l = l := by
  unfold stripTicks
  rw [if_neg]
  rintro ⟨h1, -⟩
  exact h (List.mem_of_mem_head? (by simp [h1]))

/-- Helper for claim C4 (amended): normalization is idempotent whenever its
result contains no backtick — all later pipeline stages are then the
identity on the result. -/
lemma normalize_idem_of_no_btick (l : List Char)
    (h : btick ∉ normalize_one_line l) :
    normalize_one_line (normalize_one_line l) = normalize_one_line l := by
  by_cases h0 : normalize_one_line l = []
  · rw [h0]; simp [normalize_one_line]
  · have hnl : '\n' ∉ normalize_one_line l := normalize_no_newline l
    have hch : List.Chain' noTwoWS (normalize_one_line l) := normalize_chain l
    have hst : stripStr (normalize_one_line l) = normalize_one_line l :=
      normalize_stripped l
    rw [normalize_shape _ h0]
    unfold preTicks
    rw [hst, dropLeadingFence_of_no_btick _ h, dropTrailingFence_of_clean _ h hnl,
        stripTicks_of_no_btick _ h, collapseNl_id _ hnl, collapseSp_id _ hch, hst]

/-- The confirmation gate of lines 199-211 lets the invocation through to
the execution phase whenever it accepts. -/
lemma runMode_gate (task cmd : List Char) (env : RunEnv)
    (h : gateAccepts cmd env.confirmInput) :
    runMode task cmd env = runExecPhase task cmd env := by
  unfold runMode
  by_cases hd : is_dangerous cmd = true
  · rw [if_pos hd, if_neg (fun hne => hne (h.1 hd))]
  · rw [if_neg hd, if_neg (not_not_intro (h.2 (by simpa using hd)))]

/-- C1 counterexample.  The claim states that for a dangerous suggested
command every confirmation input other than the literal exact token YES
aborts with exit status 3 and without execution.  The input consisting of a
space followed by YES is not the literal token, yet the code strips it
first, accepts it, executes the command and exits 0: the claim as stated is
false. -/
theorem claim_C1_counterexample :
    (' ' :: YES_TOKEN) ≠ YES_TOKEN ∧
    runMode ("t".toList) ("mkfs.x".toList)
      ⟨' ' :: YES_TOKEN, ⟨[], [], 0⟩, [], [], [], 0, true, false⟩ =
      ⟨ProcEnd.exited 0,
       [save_state ("t".toList) ("mkfs.x".toList) (some []) (some 0)],
       ["mkfs.x".toList], []⟩ := by decide

/-- C1 (amended): in run mode, when the suggested command is classified
dangerous, the gate accepts exactly the inputs whose whitespace-stripped
form is the literal token YES (case-sensitive); every other input aborts
without executing anything, persists a session state holding the task and
the rejected command, and exits with the distinct declined-dangerous
status 3. -/
theorem claim_C1_theorem (task cmd : List Char) (env : RunEnv)
    (hd : is_dangerous cmd = true) :
    (stripStr env.confirmInput = YES_TOKEN →
      runMode task cmd env = runExecPhase task cmd env) ∧
    (stripStr env.confirmInput ≠ YES_TOKEN →
      runMode task cmd env =
        ⟨ProcEnd.exited 3, [save_state task cmd none none], [], []⟩) := by
  constructor
  · intro hy
    unfold runMode
    rw [if_pos hd, if_neg (fun hne => hne hy)]
  · intro hn
    unfold runMode
    rw [if_pos hd, if_pos hn]

/-- C1 witness: a concrete dangerous command with a rejected confirmation. -/
theorem claim_C1_witness :
    runMode ("t".toList) ("mkfs.x".toList)
      ⟨"no".toList, ⟨[], [], 0⟩, [], [], [], 0, true, false⟩ =
      ⟨ProcEnd.exited 3,
       [save_state ("t".toList) ("mkfs.x".toList) none none], [], []⟩ :=
  (claim_C1_theorem _ _ _ (by decide)).2 (by decide)

/-- C2: `is_dangerous cmd` is true exactly when at least one signature of
the fixed pattern list matches somewhere in `cmd` (case-sensitive search);
in particular a command matched by some listed signature yields true and a
command matched by none yields false. -/
theorem claim_C2_theorem (cmd : List Char) :
    is_dangerous cmd = true ↔
      ∃ m ∈ DANGEROUS_MATCHERS, reSearch m cmd = true := by
  simp [is_dangerous, List.any_eq_true]

/-- C2 witness: the iff at a concrete command. -/
theorem claim_C2_witness :
    is_dangerous ("mkfs.ext4".toList) = true ↔
      ∃ m ∈ DANGEROUS_MATCHERS, reSearch m ("mkfs.ext4".toList) = true :=
  claim_C2_theorem _

/-- C3: the result of normalization never contains a newline character. -/
theorem claim_C3_theorem (s : List Char) : '\n' ∉ normalize_one_line s :=
  normalize_no_newline s

/-- C3 witness: the theorem at a concrete input containing a newline. -/
theorem claim_C3_witness : '\n' ∉ normalize_one_line ("a\nb".toList) :=
  claim_C3_theorem _

/-- C4 counterexample.  Normalization is NOT idempotent: on a command
wrapped in two layers of backticks one application strips one layer, a
second application strips another. -/
theorem claim_C4_counterexample :
    normalize_one_line (normalize_one_line [btick, btick, 'x', btick, btick]) ≠
      normalize_one_line [btick, btick, 'x', btick, btick] := by decide

/-- C4 (amended): normalization is idempotent on every input whose
normalized form contains no backtick character (the failure of idempotence
comes only from the backtick and fence stripping steps re-firing). -/
theorem claim_C4_theorem (s : List Char) (h : btick ∉ normalize_one_line s) :
    normalize_one_line (normalize_one_line s) = normalize_one_line s :=
  normalize_idem_of_no_btick s h

/-- C4 witness: idempotence at a concrete backtick-free result. -/
theorem claim_C4_witness :
    btick ∉ normalize_one_line ("ls -la".toList) ∧
    normalize_one_line (normalize_one_line ("ls -la".toList)) =
      normalize_one_line ("ls -la".toList) :=
  ⟨by decide, claim_C4_theorem _ (by decide)⟩

/-- C5 counterexample.  The claim says refine mode without the reuse-last
flag proceeds when a stored fallback exists even though no task text was
given.  Here the stored state holds both a task and a command, the command
line has no task text, and the code still fails with the usage error
(lines 145-147 test only `args.task`). -/
theorem claim_C5_counterexample :
    refineEntry false [] [] ⟨some ['x'], some ['y'], some []⟩ =
      RefineEntryResult.usageError := by decide

/-- C5 (amended): refine mode without the reuse-last flag fails with the
usage error exactly when no new task text is supplied on the command line —
regardless of any stored state; when task text is supplied it proceeds,
taking the stored command (possibly empty) as the previous-command
reference. -/
theorem claim_C5_theorem (taskArgs : List (List Char)) (why : List Char)
    (st : StateData) :
    (taskArgs = [] →
      refineEntry false taskArgs why st = RefineEntryResult.usageError) ∧
    (taskArgs ≠ [] →
      refineEntry false taskArgs why st =
        RefineEntryResult.proceed (joinSpaces taskArgs) (getD0 st.cmdF) why
          (getD0 st.cmdF = [])) := by
  constructor
  · intro h
    unfold refineEntry
    rw [if_neg (by simp), if_pos h]
  · intro h
    unfold refineEntry
    rw [if_neg (by simp), if_neg h]

/-- C5 witness: with task text present and empty stored state, refine
proceeds. -/
theorem claim_C5_witness :
    refineEntry false [['x']] [] ⟨none, none, none⟩ =
      RefineEntryResult.proceed (joinSpaces [['x']]) (getD0 none) []
        (getD0 none = []) :=
  (claim_C5_theorem _ _ _).2 (by decide)

/-- C6: in run mode, once the confirmation gate has accepted, a nonzero
exit of the executed command with the refine offer declined prints the
captured standard error, persists exactly one session state whose
last-error field is the whitespace-stripped captured standard error and
whose exit-code field is the command's exit code, and terminates with that
same exit code. -/
theorem claim_C6_theorem (task cmd : List Char) (env : RunEnv)
    (hg : gateAccepts cmd env.confirmInput)
    (hrc : env.execOutcome.returncode ≠ 0)
    (hdecl : ¬ isYes env.refineChoice) :
    runMode task cmd env =
      ⟨ProcEnd.exited env.execOutcome.returncode,
       [save_state task cmd (some (stripStr env.execOutcome.stderr))
          (some env.execOutcome.returncode)],
       [cmd], [env.execOutcome.stderr]⟩ := by
  rw [runMode_gate task cmd env hg]
  simp [runExecPhase, hrc, hdecl]

/-- C6 witness: the scenario of the spec — stderr "file not found", exit
code 1, refine declined. -/
theorem claim_C6_witness :
    runMode ("t".toList) ("ls".toList)
      ⟨"y".toList, ⟨[], "file not found".toList, 1⟩, "n".toList, [], [], 0,
        true, false⟩ =
      ⟨ProcEnd.exited 1,
       [save_state ("t".toList) ("ls".toList)
          (some (stripStr ("file not found".toList))) (some 1)],
       ["ls".toList], ["file not found".toList]⟩ :=
  claim_C6_theorem _ _ _ (by decide) (by decide) (by decide)

/-- C7: refine mode with the reuse-last flag and no usable prior state (no
stored task or no stored command) exits with status 1 and writes neither a
history entry nor a state file. -/
theorem claim_C7_theorem (taskArgs : List (List Char)) (why : List Char)
    (nh hf : Bool) (raw : List Char) (st : StateData)
    (h : getD0 st.taskF = [] ∨ getD0 st.cmdF = []) :
    refineMain true taskArgs why nh hf raw st =
      ⟨ProcEnd.exited 1, [], [], []⟩ := by
  have he : refineEntry true taskArgs why st = RefineEntryResult.usageError := by
    unfold refineEntry
    rw [if_pos rfl, if_pos h]
  unfold refineMain
  rw [he]

/-- C7 witness: missing state at a concrete invocation. -/
theorem claim_C7_witness :
    refineMain true [] [] false false ("ls".toList) ⟨none, none, none⟩ =
      ⟨ProcEnd.exited 1, [], [], []⟩ :=
  claim_C7_theorem _ _ _ _ _ _ (Or.inl rfl)

/-- C8: the claim says a history-append failure is non-fatal.  In the code
(lines 168-169) `save_history` is called with no exception handling: when
the append raises, the invocation crashes — the state is never saved and
the command never printed.  This theorem evaluates the model at the failing
input: suggest mode, task "list files", a valid backend response, history
enabled but failing. -/
theorem claim_C8_theorem :
    suggestMain ["list".toList, "files".toList] false true ("ls -la".toList) =
      ⟨ProcEnd.crashed, [], [], []⟩ := by decide

/-- C9 counterexample.  The claim says backticks are stripped only when the
whole remaining string is wrapped in a single pair, and that a string whose
leading and trailing backticks are separate inline spans keeps its backtick
content.  On the input consisting of two inline spans the code still strips
the first and last character (the test at lines 59-60 looks only at the
first and last character), mutilating both spans. -/
theorem claim_C9_counterexample :
    normalize_one_line [btick, 'a', btick, ' ', btick, 'b', btick] =
      ['a', btick, ' ', btick, 'b'] ∧
    normalize_one_line [btick, 'a', btick, ' ', btick, 'b', btick] ≠
      [btick, 'a', btick, ' ', btick, 'b', btick] := by decide

/-- C9 (amended): after trimming and fence removal, one leading and one
trailing backtick are stripped (followed by another trim) whenever the
string both starts and ends with a backtick — whether or not the two form a
single wrapping pair; otherwise the string passes to the whitespace
collapses unchanged. -/
theorem claim_C9_theorem (l : List Char) :
    ((preTicks l).head? = some btick → (preTicks l).getLast? = some btick →
      normalize_one_line l =
        stripStr (collapseSp (collapseNl
          (stripStr ((preTicks l).tail.dropLast))))) ∧
    (¬((preTicks l).head? = some btick ∧ (preTicks l).getLast? = some btick) →
      normalize_one_line l = stripStr (collapseSp (collapseNl (preTicks l)))) := by
  by_cases h0 : l = []
  · subst h0
    constructor
    · intro h1
      exact absurd h1 (by decide)
    · intro _
      decide
  · have hsh := normalize_shape l h0
    unfold stripTicks at hsh
    constructor
    · intro h1 h2
      rw [hsh, if_pos ⟨h1, h2⟩]
    · intro h12
      rw [hsh, if_neg h12]

/-- C9 witness: the backtick-stripping branch at the two-span input. -/
theorem claim_C9_witness :
    normalize_one_line [btick, 'a', btick, ' ', btick, 'b', btick] =
      stripStr (collapseSp (collapseNl (stripStr
        ((preTicks [btick, 'a', btick, ' ', btick, 'b', btick]).tail.dropLast)))) :=
  (claim_C9_theorem _).1 (by decide) (by decide)

/-- C10: for suggest and for refine (with a task supplied), the
empty-or-multiline failure (exit status 2) happens exactly when the
normalized backend response is empty — the multiline half of the test can
never fire because normalization leaves no newline. -/
theorem claim_C10_theorem (raw why : List Char) (taskArgs : List (List Char))
    (nh hf : Bool) (st : StateData) (hT : taskArgs ≠ []) :
    ((suggestMain taskArgs nh hf raw).ending = ProcEnd.exited 2 ↔
      normalize_one_line raw = []) ∧
    ((refineMain false taskArgs why nh hf raw st).ending = ProcEnd.exited 2 ↔
      normalize_one_line raw = []) := by
  have hnl : '\n' ∉ normalize_one_line raw := normalize_no_newline raw
  have hEM : emptyOrMultiline (normalize_one_line raw) ↔
      normalize_one_line raw = [] := by
    constructor
    · rintro (h | h)
      · exact h
      · exact absurd h hnl
    · exact Or.inl
  have hs : (suggestMain taskArgs nh hf raw).ending = ProcEnd.exited 2 ↔
      emptyOrMultiline (normalize_one_line raw) := by
    unfold suggestMain
    rw [if_neg hT]
    by_cases hc : emptyOrMultiline (normalize_one_line raw)
    · simp [hc]
    · rw [if_neg hc]
      by_cases hcr : nh = false ∧ hf = true
      · simp [hcr, hc]
      · simp [hcr, hc]
  have hre : refineEntry false taskArgs why st =
      RefineEntryResult.proceed (joinSpaces taskArgs) (getD0 st.cmdF) why
        (getD0 st.cmdF = []) := by
    unfold refineEntry
    rw [if_neg (by simp), if_neg hT]
  have hr : (refineMain false taskArgs why nh hf raw st).ending =
      ProcEnd.exited 2 ↔ emptyOrMultiline (normalize_one_line raw) := by
    unfold refineMain
    rw [hre]
    by_cases hc : emptyOrMultiline (normalize_one_line raw)
    · simp [hc]
    · by_cases hcr : nh = false ∧ hf = true
      · simp [hcr, hc]
      · simp [hcr, hc]
  exact ⟨hs.trans hEM, hr.trans hEM⟩

/-- C10 witness: the exit-2 characterisation at a concrete invocation. -/
theorem claim_C10_witness :
    ((suggestMain [("t".toList)] false false ("ls".toList)).ending =
        ProcEnd.exited 2 ↔ normalize_one_line ("ls".toList) = []) ∧
    ((refineMain false [("t".toList)] [] false false ("ls".toList)
        ⟨none, none, none⟩).ending = ProcEnd.exited 2 ↔
      normalize_one_line ("ls".toList) = []) :=
  claim_C10_theorem _ _ _ _ _ _ (by decide)
